import Mathlib

/-!
Verification of the Finance-App loan/amortization core
(src/js/utils/amortization.js and src/js/models/FinancingManager.js)
against its natural-language specification.

Monetary amounts are modelled as exact rationals (ℚ); JavaScript's
`Math.round(x * 100) / 100` becomes `round2`.  Calendar dates are modelled
as a year/month/day structure with the month arithmetic of `Date.setMonth`
(day overflow rolls into the following month) and ISO formatting; the
status refresher compares ISO date strings lexicographically, exactly as
the source does.
-/

set_option maxRecDepth 100000

namespace FinanceApp

/-- Installment lifecycle status: the source stores the strings
"pending" / "overdue" / "paid". -/
inductive IStatus where
  | pending
  | overdue
  | paid
deriving DecidableEq, Repr

/-- One scheduled payment, mirroring the object literals built by
`calculatePRICE` / `calculateSAC`.  Field names follow the source
(`principal` and `interest` are the per-installment components). -/
structure Installment where
  number : ℕ
  dueDate : String
  principal : ℚ
  interest : ℚ
  payment : ℚ
  balance : ℚ
  status : IStatus
  paidDate : Option String
  linkedTransactionId : Option String
deriving DecidableEq, Repr

/-- JavaScript `Math.round(value * 100) / 100` (`round` in the source):
`Math.round x = ⌊x + 1/2⌋` (half always rounds toward +∞). -/
def round2 (value : ℚ) : ℚ := (⌊value * 100 + 1 / 2⌋ : ℚ) / 100

/-- Calendar date (year, month 1-12, day 1-31). -/
structure SDate where
  year : ℕ
  month : ℕ
  day : ℕ
deriving DecidableEq, Repr

def isLeap (y : ℕ) : Bool := y % 4 == 0 && (y % 100 != 0 || y % 400 == 0)

def daysInMonth (y m : ℕ) : ℕ :=
  if m = 2 then (if isLeap y then 29 else 28)
  else if m = 4 ∨ m = 6 ∨ m = 9 ∨ m = 11 then 30
  else 31

/-- `dueDate.setMonth(dueDate.getMonth() + i)` of JavaScript: add `i`
calendar months; a day past the end of the target month rolls over into
the following month (JS Date normalisation; at most one roll is needed
since 31 - 28 = 3 < 28). -/
def addMonths (d : SDate) (i : ℕ) : SDate :=
  let t := (d.month - 1) + i
  let y := d.year + t / 12
  let m := t % 12 + 1
  if d.day ≤ daysInMonth y m then ⟨y, m, d.day⟩
  else if m = 12 then ⟨y + 1, 1, d.day - daysInMonth y m⟩
  else ⟨y, m + 1, d.day - daysInMonth y m⟩

def pad2 (n : ℕ) : String := if n < 10 then "0" ++ toString n else toString n

def pad4 (n : ℕ) : String :=
  if n < 10 then "000" ++ toString n
  else if n < 100 then "00" ++ toString n
  else if n < 1000 then "0" ++ toString n
  else toString n

/-- `date.toISOString().split('T')[0]`. -/
def SDate.toISO (d : SDate) : String :=
  pad4 d.year ++ "-" ++ pad2 d.month ++ "-" ++ pad2 d.day

/-- Loop body of `calculatePRICE`: builds the rows for periods
`i, i+1, …` while `rem` periods remain, threading the exact (unrounded)
running balance.  Stored figures are rounded to 2 decimals, the running
balance is not (as in the source). -/
def priceRows (pmt monthlyRate : ℚ) (start : SDate) : ℕ → ℕ → ℚ → List Installment
  | _, 0, _ => []
  | i, rem + 1, balance =>
      let interest := balance * monthlyRate
      let amortization := pmt - interest
      let newBalance := max 0 (balance - amortization)
      { number := i
        dueDate := (addMonths start i).toISO
        principal := round2 amortization
        interest := round2 interest
        payment := round2 pmt
        balance := round2 newBalance
        status := .pending
        paidDate := none
        linkedTransactionId := none } :: priceRows pmt monthlyRate start (i + 1) rem newBalance

/-- `calculatePRICE(principal, annualRate, termMonths, startDate)`:
French/annuity system with fixed payment
`PMT = P·r·(1+r)^n / ((1+r)^n − 1)` (or `P/n` when `r = 0`).
The source takes the start date as an ISO string and parses it with
`new Date`; here the parsed date is passed directly (the string
conversion is handled at the `addFinancing` boundary). -/
def calculatePRICE (principal annualRate : ℚ) (termMonths : ℕ) (start : SDate) :
    List Installment :=
  let monthlyRate := annualRate / 100 / 12
  let pmt :=
    if monthlyRate = 0 then principal / termMonths
    else
      let factor := (1 + monthlyRate) ^ termMonths
      principal * (monthlyRate * factor) / (factor - 1)
  priceRows pmt monthlyRate start 1 termMonths principal

/-- Loop body of `calculateSAC`. -/
def sacRows (constantAmortization monthlyRate : ℚ) (start : SDate) :
    ℕ → ℕ → ℚ → List Installment
  | _, 0, _ => []
  | i, rem + 1, balance =>
      let interest := balance * monthlyRate
      let payment := constantAmortization + interest
      let newBalance := max 0 (balance - constantAmortization)
      { number := i
        dueDate := (addMonths start i).toISO
        principal := round2 constantAmortization
        interest := round2 interest
        payment := round2 payment
        balance := round2 newBalance
        status := .pending
        paidDate := none
        linkedTransactionId := none } :: sacRows constantAmortization monthlyRate start (i + 1) rem newBalance

/-- `calculateSAC(principal, annualRate, termMonths, startDate)`:
constant amortization `P/n` per period. -/
def calculateSAC (principal annualRate : ℚ) (termMonths : ℕ) (start : SDate) :
    List Installment :=
  let monthlyRate := annualRate / 100 / 12
  let constantAmortization := principal / termMonths
  sacRows constantAmortization monthlyRate start 1 termMonths principal

/-! ### Spec-side recurrence (claim C1)

These two definitions follow the specification's words (spec §4.1), to be
compared with the source-derived `calculatePRICE`. -/

/-- Spec: with `r = annualRate/100/12`, the fixed payment is
`principal / termMonths` when `r = 0` and
`principal·r·(1+r)^termMonths / ((1+r)^termMonths − 1)` otherwise. -/
def specPMT (principal r : ℚ) (termMonths : ℕ) : ℚ :=
  if r = 0 then principal / termMonths
  else principal * r * (1 + r) ^ termMonths / ((1 + r) ^ termMonths - 1)

/-- Spec: one iteration step of the running balance:
`interest = balance × r`; `principalComponent = PMT − interest`;
`balance = max(0, balance − principalComponent)`. -/
def priceStep (pmt r balance : ℚ) : ℚ := max 0 (balance - (pmt - balance * r))

/-- Spec: the running balance before period `k+1` (so `specBalance … 0`
is the principal and `specBalance … termMonths` is the final balance). -/
def specBalance (principal pmt r : ℚ) : ℕ → ℚ
  | 0 => principal
  | k + 1 => priceStep pmt r (specBalance principal pmt r k)

theorem specBalance_shift (principal pmt r : ℚ) (k : ℕ) :
    specBalance principal pmt r (k + 1)
      = specBalance (priceStep pmt r principal) pmt r k := by
  induction k with
  | zero => rfl
  | succ k ih => rw [specBalance, ih, specBalance]

/-- SAC analogue of `specBalance`: running balance before period `k+1`
under the constant amortization `a` (spec §4.1:
`balance = max(0, balance − principalComponent)`). -/
def sacBalance (principal a : ℚ) : ℕ → ℚ
  | 0 => principal
  | k + 1 => max 0 (sacBalance principal a k - a)

theorem sacBalance_shift (principal a : ℚ) (k : ℕ) :
    sacBalance principal a (k + 1) = sacBalance (max 0 (principal - a)) a k := by
  induction k with
  | zero => rfl
  | succ k ih => rw [sacBalance, ih, sacBalance]

/-! ### Structural lemmas about the generated rows -/

theorem priceRows_length (pmt r : ℚ) (s : SDate) :
    ∀ (rem i : ℕ) (bal : ℚ), (priceRows pmt r s i rem bal).length = rem := by
  intro rem
  induction rem with
  | zero => intro i bal; rfl
  | succ rem ih => intro i bal; simp [priceRows, ih]

theorem sacRows_length (a r : ℚ) (s : SDate) :
    ∀ (rem i : ℕ) (bal : ℚ), (sacRows a r s i rem bal).length = rem := by
  intro rem
  induction rem with
  | zero => intro i bal; rfl
  | succ rem ih => intro i bal; simp [sacRows, ih]

theorem priceRows_map_number (pmt r : ℚ) (s : SDate) :
    ∀ (rem i : ℕ) (bal : ℚ),
      (priceRows pmt r s i rem bal).map Installment.number = List.range' i rem := by
  intro rem
  induction rem with
  | zero => intro i bal; rfl
  | succ rem ih => intro i bal; simp [priceRows, List.range', ih]

theorem sacRows_map_number (a r : ℚ) (s : SDate) :
    ∀ (rem i : ℕ) (bal : ℚ),
      (sacRows a r s i rem bal).map Installment.number = List.range' i rem := by
  intro rem
  induction rem with
  | zero => intro i bal; rfl
  | succ rem ih => intro i bal; simp [sacRows, List.range', ih]

theorem priceRows_fresh (pmt r : ℚ) (s : SDate) :
    ∀ (rem i : ℕ) (bal : ℚ) (inst : Installment),
      inst ∈ priceRows pmt r s i rem bal →
        inst.status = .pending ∧ inst.paidDate = none ∧
          inst.linkedTransactionId = none := by
  intro rem
  induction rem with
  | zero => intro i bal inst h; cases h
  | succ rem ih =>
      intro i bal inst h
      rw [priceRows] at h
      rcases List.mem_cons.mp h with h | h
      · subst h; exact ⟨rfl, rfl, rfl⟩
      · exact ih _ _ _ h

theorem sacRows_fresh (a r : ℚ) (s : SDate) :
    ∀ (rem i : ℕ) (bal : ℚ) (inst : Installment),
      inst ∈ sacRows a r s i rem bal →
        inst.status = .pending ∧ inst.paidDate = none ∧
          inst.linkedTransactionId = none := by
  intro rem
  induction rem with
  | zero => intro i bal inst h; cases h
  | succ rem ih =>
      intro i bal inst h
      rw [sacRows] at h
      rcases List.mem_cons.mp h with h | h
      · subst h; exact ⟨rfl, rfl, rfl⟩
      · exact ih _ _ _ h

/-- Full characterisation of the `k`-th generated PRICE row in terms of the
spec recurrence `specBalance`. -/
theorem priceRows_get? (pmt r : ℚ) (s : SDate) :
    ∀ (k rem i : ℕ) (bal : ℚ), k < rem →
      (priceRows pmt r s i rem bal).get? k = some
        { number := i + k
          dueDate := (addMonths s (i + k)).toISO
          principal := round2 (pmt - specBalance bal pmt r k * r)
          interest := round2 (specBalance bal pmt r k * r)
          payment := round2 pmt
          balance := round2 (specBalance bal pmt r (k + 1))
          status := .pending
          paidDate := none
          linkedTransactionId := none } := by
  intro k
  induction k with
  | zero =>
      intro rem i bal hk
      match rem, hk with
      | rem + 1, _ =>
        rw [priceRows]
        simp [specBalance, priceStep]
  | succ k ih =>
      intro rem i bal hk
      match rem, hk with
      | rem + 1, hk =>
        rw [priceRows]
        have h1 : k < rem := Nat.lt_of_succ_lt_succ hk
        rw [List.get?_cons_succ, ih rem (i + 1) (max 0 (bal - (pmt - bal * r))) h1]
        have hstep : max 0 (bal - (pmt - bal * r)) = priceStep pmt r bal := rfl
        rw [hstep, ← specBalance_shift, ← specBalance_shift]
        have hidx : i + 1 + k = i + (k + 1) := by omega
        rw [hidx]

/-- Full characterisation of the `k`-th generated SAC row. -/
theorem sacRows_get? (a r : ℚ) (s : SDate) :
    ∀ (k rem i : ℕ) (bal : ℚ), k < rem →
      (sacRows a r s i rem bal).get? k = some
        { number := i + k
          dueDate := (addMonths s (i + k)).toISO
          principal := round2 a
          interest := round2 (sacBalance bal a k * r)
          payment := round2 (a + sacBalance bal a k * r)
          balance := round2 (sacBalance bal a (k + 1))
          status := .pending
          paidDate := none
          linkedTransactionId := none } := by
  intro k
  induction k with
  | zero =>
      intro rem i bal hk
      match rem, hk with
      | rem + 1, _ =>
        rw [sacRows]
        simp [sacBalance]
  | succ k ih =>
      intro rem i bal hk
      match rem, hk with
      | rem + 1, hk =>
        rw [sacRows]
        have h1 : k < rem := Nat.lt_of_succ_lt_succ hk
        rw [List.get?_cons_succ, ih rem (i + 1) (max 0 (bal - a)) h1]
        rw [← sacBalance_shift, ← sacBalance_shift]
        have hidx : i + 1 + k = i + (k + 1) := by omega
        rw [hidx]

/-- `calculatePRICE` uses exactly the spec's fixed payment `specPMT`. -/
theorem calculatePRICE_eq_spec (P rate : ℚ) (n : ℕ) (d : SDate) :
    calculatePRICE P rate n d
      = priceRows (specPMT P (rate / 100 / 12) n) (rate / 100 / 12) d 1 n P := by
  unfold calculatePRICE specPMT
  by_cases h : rate / 100 / 12 = 0
  · simp [h]
  · simp only [if_neg h]
    congr 2
    ring

/-- **C1.** For every principal > 0, annualRate ≥ 0, positive integer
termMonths and start date, the PRICE generator computes, with
`r = annualRate/100/12`, the fixed payment `specPMT` (= `principal/termMonths`
when `r = 0`, the closed annuity formula otherwise), and row `k` (period
`k+1`) carries `interest = balance·r`, `principalComponent = PMT − interest`
and the balance updated by `max 0 (balance − principalComponent)`, each
stored figure rounded to 2 decimals; for principal 1000, annualRate 12,
termMonths 12 every payment is exactly 88.85, installment 1 has interest
10.00, principal component 78.85 and balance 921.15, and installment 12
has balance 0. -/
theorem claim_C1_price_schedule (P rate : ℚ) (n : ℕ) (d : SDate)
    (hP : 0 < P) (hrate : 0 ≤ rate) (hn : 1 ≤ n) :
    (∀ k, k < n →
      (calculatePRICE P rate n d).get? k = some
        { number := k + 1
          dueDate := (addMonths d (k + 1)).toISO
          principal := round2 (specPMT P (rate / 100 / 12) n
            - specBalance P (specPMT P (rate / 100 / 12) n) (rate / 100 / 12) k
              * (rate / 100 / 12))
          interest := round2 (specBalance P (specPMT P (rate / 100 / 12) n)
            (rate / 100 / 12) k * (rate / 100 / 12))
          payment := round2 (specPMT P (rate / 100 / 12) n)
          balance := round2 (specBalance P (specPMT P (rate / 100 / 12) n)
            (rate / 100 / 12) (k + 1))
          status := .pending
          paidDate := none
          linkedTransactionId := none })
    ∧ (∀ inst ∈ calculatePRICE 1000 12 12 d, inst.payment = 88.85)
    ∧ ((calculatePRICE 1000 12 12 d).get? 0).map Installment.interest = some 10
    ∧ ((calculatePRICE 1000 12 12 d).get? 0).map Installment.principal = some 78.85
    ∧ ((calculatePRICE 1000 12 12 d).get? 0).map Installment.balance = some 921.15
    ∧ ((calculatePRICE 1000 12 12 d).get? 11).map Installment.balance = some 0 := by
  have hrow : ∀ (P' rate' : ℚ) (n' k : ℕ), k < n' →
      (calculatePRICE P' rate' n' d).get? k = some
        { number := k + 1
          dueDate := (addMonths d (k + 1)).toISO
          principal := round2 (specPMT P' (rate' / 100 / 12) n'
            - specBalance P' (specPMT P' (rate' / 100 / 12) n') (rate' / 100 / 12) k
              * (rate' / 100 / 12))
          interest := round2 (specBalance P' (specPMT P' (rate' / 100 / 12) n')
            (rate' / 100 / 12) k * (rate' / 100 / 12))
          payment := round2 (specPMT P' (rate' / 100 / 12) n')
          balance := round2 (specBalance P' (specPMT P' (rate' / 100 / 12) n')
            (rate' / 100 / 12) (k + 1))
          status := .pending
          paidDate := none
          linkedTransactionId := none } := by
    intro P' rate' n' k hk
    rw [calculatePRICE_eq_spec, priceRows_get? _ _ _ k n' 1 P' hk]
    have hidx : 1 + k = k + 1 := Nat.add_comm 1 k
    rw [hidx]
  refine ⟨fun k hk => hrow P rate n k hk, ?_, ?_, ?_, ?_, ?_⟩
  · intro inst hmem
    obtain ⟨k, hk⟩ := List.mem_iff_get?.mp hmem
    have hlen : (calculatePRICE 1000 12 12 d).length = 12 := by
      rw [calculatePRICE_eq_spec]; exact priceRows_length _ _ _ _ _ _
    have hklt : k < 12 := by
      obtain ⟨h3, -⟩ := List.get?_eq_some.mp hk
      rwa [hlen] at h3
    rw [hrow 1000 12 12 k hklt] at hk
    have : inst.payment = round2 (specPMT 1000 (12 / 100 / 12) 12) := by
      cases hk; rfl
    rw [this]
    with_unfolding_all rfl
  · have h0 := hrow 1000 12 12 0 (by norm_num)
    rw [h0]; with_unfolding_all rfl
  · have h0 := hrow 1000 12 12 0 (by norm_num)
    rw [h0]; with_unfolding_all rfl
  · have h0 := hrow 1000 12 12 0 (by norm_num)
    rw [h0]; with_unfolding_all rfl
  · have h11 := hrow 1000 12 12 11 (by norm_num)
    rw [h11]; with_unfolding_all rfl

/-- Witness for C1: concrete instance at principal 1000, annualRate 12,
termMonths 12, start date 2024-01-01 — installment 12 has balance 0. -/
theorem claim_C1_price_schedule_witness :
    ((calculatePRICE 1000 12 12 ⟨2024, 1, 1⟩).get? 11).map Installment.balance
      = some 0 :=
  (claim_C1_price_schedule 1000 12 12 ⟨2024, 1, 1⟩ (by norm_num) (by norm_num)
    (by norm_num)).2.2.2.2.2

theorem calculateSAC_def (P rate : ℚ) (n : ℕ) (d : SDate) :
    calculateSAC P rate n d = sacRows (P / n) (rate / 100 / 12) d 1 n P := rfl

/-- **C2.** For every input (principal, annualRate, termMonths, startDate)
and both systems PRICE and SAC, the generated schedule has exactly
termMonths installments, numbered contiguously 1..termMonths in order, and
every installment has status pending, paidDate null, linkedTransactionId
null. -/
theorem claim_C2_schedule_completeness (P rate : ℚ) (n : ℕ) (d : SDate) :
    ((calculatePRICE P rate n d).length = n
      ∧ (calculatePRICE P rate n d).map Installment.number = List.range' 1 n
      ∧ ∀ inst ∈ calculatePRICE P rate n d,
          inst.status = .pending ∧ inst.paidDate = none
            ∧ inst.linkedTransactionId = none)
    ∧ ((calculateSAC P rate n d).length = n
      ∧ (calculateSAC P rate n d).map Installment.number = List.range' 1 n
      ∧ ∀ inst ∈ calculateSAC P rate n d,
          inst.status = .pending ∧ inst.paidDate = none
            ∧ inst.linkedTransactionId = none) := by
  rw [calculatePRICE_eq_spec, calculateSAC_def]
  exact ⟨⟨priceRows_length _ _ _ _ _ _, priceRows_map_number _ _ _ _ _ _,
      fun inst h => priceRows_fresh _ _ _ _ _ _ _ h⟩,
    ⟨sacRows_length _ _ _ _ _ _, sacRows_map_number _ _ _ _ _ _,
      fun inst h => sacRows_fresh _ _ _ _ _ _ _ h⟩⟩

/-! ### Rounding lemmas -/

theorem round2_mono {x y : ℚ} (h : x ≤ y) : round2 x ≤ round2 y := by
  unfold round2
  have hf : ⌊x * 100 + 1 / 2⌋ ≤ ⌊y * 100 + 1 / 2⌋ := by
    apply Int.floor_le_floor
    nlinarith
  have : ((⌊x * 100 + 1 / 2⌋ : ℚ)) ≤ ((⌊y * 100 + 1 / 2⌋ : ℚ)) := by
    exact_mod_cast hf
  linarith

theorem round2_zero : round2 0 = 0 := by
  unfold round2
  norm_num

theorem round2_nonneg {x : ℚ} (h : 0 ≤ x) : 0 ≤ round2 x := by
  have := round2_mono h
  rwa [round2_zero] at this

/-! ### Balance invariants of the generated schedules -/

theorem specBalance_nonneg (P pmt r : ℚ) (hP : 0 ≤ P) :
    ∀ k, 0 ≤ specBalance P pmt r k
  | 0 => hP
  | k + 1 => le_max_left 0 _

theorem sacBalance_nonneg (P a : ℚ) (hP : 0 ≤ P) :
    ∀ k, 0 ≤ sacBalance P a k
  | 0 => hP
  | k + 1 => le_max_left 0 _

/-- Every stored balance is non-negative (PRICE). -/
theorem priceRows_balance_nonneg (pmt r : ℚ) (s : SDate) :
    ∀ (rem i : ℕ) (bal : ℚ) (b : ℚ),
      b ∈ (priceRows pmt r s i rem bal).map Installment.balance → 0 ≤ b := by
  intro rem
  induction rem with
  | zero => intro i bal b h; simp [priceRows] at h
  | succ rem ih =>
      intro i bal b h
      rw [priceRows] at h
      rcases List.mem_cons.mp h with h | h
      · subst h; exact round2_nonneg (le_max_left 0 _)
      · exact ih _ _ _ h

/-- Every stored balance is non-negative (SAC). -/
theorem sacRows_balance_nonneg (a r : ℚ) (s : SDate) :
    ∀ (rem i : ℕ) (bal : ℚ) (b : ℚ),
      b ∈ (sacRows a r s i rem bal).map Installment.balance → 0 ≤ b := by
  intro rem
  induction rem with
  | zero => intro i bal b h; simp [sacRows] at h
  | succ rem ih =>
      intro i bal b h
      rw [sacRows] at h
      rcases List.mem_cons.mp h with h | h
      · subst h; exact round2_nonneg (le_max_left 0 _)
      · exact ih _ _ _ h

/-- The stored balances are non-increasing, starting below the rounded
running balance, provided the fixed payment covers the interest on any
balance up to `B0` (PRICE). -/
theorem priceRows_balance_chain (pmt r : ℚ) (s : SDate) (B0 : ℚ)
    (hr : 0 ≤ r) (hpmt : B0 * r ≤ pmt) :
    ∀ (rem i : ℕ) (bal : ℚ), 0 ≤ bal → bal ≤ B0 →
      List.Chain (fun a b => b ≤ a) (round2 bal)
        ((priceRows pmt r s i rem bal).map Installment.balance) := by
  intro rem
  induction rem with
  | zero => intro i bal _ _; simp [priceRows]
  | succ rem ih =>
      intro i bal h0 hB
      rw [priceRows]
      simp only [List.map_cons]
      have hint : bal * r ≤ pmt :=
        le_trans (mul_le_mul_of_nonneg_right hB hr) hpmt
      have hle : max 0 (bal - (pmt - bal * r)) ≤ bal := by
        apply max_le h0
        nlinarith
      have h0' : (0 : ℚ) ≤ max 0 (bal - (pmt - bal * r)) := le_max_left 0 _
      exact List.Chain.cons (round2_mono hle) (ih _ _ h0' (le_trans hle hB))

/-- The stored balances are non-increasing (SAC). -/
theorem sacRows_balance_chain (a r : ℚ) (s : SDate) (ha : 0 ≤ a) :
    ∀ (rem i : ℕ) (bal : ℚ), 0 ≤ bal →
      List.Chain (fun x y => y ≤ x) (round2 bal)
        ((sacRows a r s i rem bal).map Installment.balance) := by
  intro rem
  induction rem with
  | zero => intro i bal _; simp [sacRows]
  | succ rem ih =>
      intro i bal h0
      rw [sacRows]
      simp only [List.map_cons]
      have hle : max 0 (bal - a) ≤ bal := max_le h0 (by linarith)
      exact List.Chain.cons (round2_mono hle) (ih _ _ (le_max_left 0 _))

/-- As long as `k` amortizations fit into the balance, the SAC clamp is
inactive: the running balance is exactly `B - k·a`. -/
theorem sacBalance_eq (B a : ℚ) (ha : 0 ≤ a) :
    ∀ k : ℕ, (k : ℚ) * a ≤ B → sacBalance B a k = B - k * a := by
  intro k
  induction k with
  | zero => intro _; simp [sacBalance]
  | succ k ih =>
      intro h
      have hcast : ((k + 1 : ℕ) : ℚ) = (k : ℚ) + 1 := by push_cast; ring
      have hk : (k : ℚ) * a ≤ B := by
        rw [hcast] at h; nlinarith
      rw [sacBalance, ih hk, max_eq_right (by rw [hcast] at h; nlinarith)]
      rw [hcast]; ring

/-- With rate 0 the PRICE recurrence degenerates to the SAC one with
constant amortization `pmt`. -/
theorem specBalance_rate_zero (P pmt : ℚ) :
    ∀ k, specBalance P pmt 0 k = sacBalance P pmt k := by
  intro k
  induction k with
  | zero => rfl
  | succ k ih => rw [specBalance, sacBalance, ih]; unfold priceStep; ring_nf

/-- Closed-form upper bound on the PRICE running balance: after `k`
periods it is at most `P·(g^n − g^k)/(g^n − 1)` with `g = 1+r`. -/
theorem specBalance_le (P r : ℚ) (n : ℕ) (hpos : 0 < r) (hP : 0 ≤ P)
    (hn : 1 ≤ n) :
    ∀ k, k ≤ n →
      specBalance P (P * r * (1 + r) ^ n / ((1 + r) ^ n - 1)) r k
        ≤ P * ((1 + r) ^ n - (1 + r) ^ k) / ((1 + r) ^ n - 1) := by
  have hg1 : (1 : ℚ) < 1 + r := by linarith
  have hgn : (1 : ℚ) < (1 + r) ^ n := one_lt_pow₀ hg1 (by omega)
  have hd : (0 : ℚ) < (1 + r) ^ n - 1 := by linarith
  intro k
  induction k with
  | zero =>
      intro _
      rw [specBalance, pow_zero]
      rw [mul_div_assoc, div_self (ne_of_gt hd), mul_one]
  | succ k ih =>
      intro hk1
      have ihk := ih (Nat.le_of_succ_le hk1)
      rw [specBalance]
      unfold priceStep
      apply max_le
      · apply div_nonneg (mul_nonneg hP ?_) (le_of_lt hd)
        have hpow : (1 + r) ^ (k + 1) ≤ (1 + r) ^ n :=
          pow_le_pow_right₀ (le_of_lt hg1) hk1
        linarith
      · have h1 : specBalance P (P * r * (1 + r) ^ n / ((1 + r) ^ n - 1)) r k
              * (1 + r)
            ≤ P * ((1 + r) ^ n - (1 + r) ^ k) / ((1 + r) ^ n - 1) * (1 + r) :=
          mul_le_mul_of_nonneg_right ihk (by linarith)
        have hkey : P * ((1 + r) ^ n - (1 + r) ^ k) / ((1 + r) ^ n - 1) * (1 + r)
              - P * r * (1 + r) ^ n / ((1 + r) ^ n - 1)
            = P * ((1 + r) ^ n - (1 + r) ^ (k + 1)) / ((1 + r) ^ n - 1) := by
          field_simp
          ring
        have hexp : specBalance P (P * r * (1 + r) ^ n / ((1 + r) ^ n - 1)) r k
              - (P * r * (1 + r) ^ n / ((1 + r) ^ n - 1)
                - specBalance P (P * r * (1 + r) ^ n / ((1 + r) ^ n - 1)) r k * r)
            = specBalance P (P * r * (1 + r) ^ n / ((1 + r) ^ n - 1)) r k * (1 + r)
              - P * r * (1 + r) ^ n / ((1 + r) ^ n - 1) := by ring
        rw [hexp]
        linarith

/-- The PRICE running balance reaches exactly 0 after the full term. -/
theorem specBalance_final (P r : ℚ) (n : ℕ) (hP : 0 < P) (hr : 0 ≤ r)
    (hn : 1 ≤ n) : specBalance P (specPMT P r n) r n = 0 := by
  have hnQ : (0 : ℚ) < (n : ℚ) := by exact_mod_cast Nat.lt_of_lt_of_le Nat.zero_lt_one hn
  rcases eq_or_lt_of_le hr with h0 | hpos
  · have hr0 : r = 0 := h0.symm
    subst hr0
    rw [specPMT, if_pos rfl, specBalance_rate_zero]
    have ha : (0 : ℚ) ≤ P / n := le_of_lt (div_pos hP hnQ)
    have heq : (n : ℚ) * (P / n) = P := by field_simp
    rw [sacBalance_eq P (P / n) ha n (le_of_eq heq), heq, sub_self]
  · have hne : r ≠ 0 := ne_of_gt hpos
    apply le_antisymm
    · have h := specBalance_le P r n hpos (le_of_lt hP) hn n (le_refl n)
      rw [specPMT, if_neg hne]
      simpa using h
    · exact specBalance_nonneg P _ r (le_of_lt hP) n

theorem getLast?_cons_of_some {α : Type} (x : α) {L : List α} {v : α}
    (h : L.getLast? = some v) : (x :: L).getLast? = some v := by
  cases L with
  | nil => simp at h
  | cons b l => rw [List.getLast?_cons_cons]; exact h

/-- The last stored PRICE balance is the rounded running balance after the
full term. -/
theorem priceRows_last_balance (pmt r : ℚ) (s : SDate) :
    ∀ (rem i : ℕ) (bal : ℚ), 1 ≤ rem →
      ((priceRows pmt r s i rem bal).map Installment.balance).getLast?
        = some (round2 (specBalance bal pmt r rem)) := by
  intro rem
  induction rem with
  | zero => intro i bal h; omega
  | succ rem ih =>
      intro i bal _
      rw [priceRows]
      simp only [List.map_cons]
      cases rem with
      | zero => rfl
      | succ rem' =>
          apply getLast?_cons_of_some
          rw [ih (i + 1) (max 0 (bal - (pmt - bal * r))) (by omega),
            specBalance_shift bal pmt r (rem' + 1)]
          rfl

/-- The last stored SAC balance is the rounded running balance after the
full term. -/
theorem sacRows_last_balance (a r : ℚ) (s : SDate) :
    ∀ (rem i : ℕ) (bal : ℚ), 1 ≤ rem →
      ((sacRows a r s i rem bal).map Installment.balance).getLast?
        = some (round2 (sacBalance bal a rem)) := by
  intro rem
  induction rem with
  | zero => intro i bal h; omega
  | succ rem ih =>
      intro i bal _
      rw [sacRows]
      simp only [List.map_cons]
      cases rem with
      | zero => rfl
      | succ rem' =>
          apply getLast?_cons_of_some
          rw [ih (i + 1) (max 0 (bal - a)) (by omega),
            sacBalance_shift bal a (rem' + 1)]

/-- The SAC running balance reaches exactly 0 after the full term. -/
theorem sacBalance_final (P : ℚ) (n : ℕ) (hP : 0 < P) (hn : 1 ≤ n) :
    sacBalance P (P / n) n = 0 := by
  have hnQ : (0 : ℚ) < (n : ℚ) := by
    exact_mod_cast Nat.lt_of_lt_of_le Nat.zero_lt_one hn
  have ha : (0 : ℚ) ≤ P / n := le_of_lt (div_pos hP hnQ)
  have heq : (n : ℚ) * (P / n) = P := by field_simp
  rw [sacBalance_eq P (P / n) ha n (le_of_eq heq), heq, sub_self]

/-- The fixed PRICE payment always covers the interest on the principal. -/
theorem specPMT_ge (P r : ℚ) (n : ℕ) (hP : 0 < P) (hr : 0 ≤ r) (hn : 1 ≤ n) :
    P * r ≤ specPMT P r n := by
  have hnQ : (0 : ℚ) < (n : ℚ) := by
    exact_mod_cast Nat.lt_of_lt_of_le Nat.zero_lt_one hn
  rcases eq_or_lt_of_le hr with h0 | hpos
  · rw [specPMT, if_pos h0.symm, ← h0, mul_zero]
    exact le_of_lt (div_pos hP hnQ)
  · rw [specPMT, if_neg (ne_of_gt hpos)]
    have hg1 : (1 : ℚ) < 1 + r := by linarith
    have hgn : (1 : ℚ) < (1 + r) ^ n := one_lt_pow₀ hg1 (by omega)
    have hd : (0 : ℚ) < (1 + r) ^ n - 1 := by linarith
    rw [le_div_iff₀ hd]
    nlinarith

/-- Counterexample to C3 as frozen: for principal 0.996 (= 249/250),
annualRate 12, termMonths 250, the first stored balance is 1.00 — the
rounding step rounds the running balance up past the principal, so
`balance[1] ≤ balance[0] = principal` fails. -/
theorem claim_C3_counterexample :
    (calculatePRICE (249 / 250) 12 250 ⟨2024, 1, 1⟩).head?.map
        Installment.balance = some 1
      ∧ ¬ ((1 : ℚ) ≤ 249 / 250) := by
  constructor
  · with_unfolding_all rfl
  · norm_num

/-- **C3** (amended): for every schedule generated by the PRICE or SAC
calculator on principal > 0, annualRate ≥ 0, termMonths ≥ 1, every stored
balance is ≥ 0, the stored balance sequence is non-increasing taking
`balance[0] = principal rounded to 2 decimals` (the frozen claim's
unrounded baseline fails, see the counterexample), and the final stored
balance is exactly 0. -/
theorem claim_C3_balance_invariants (P rate : ℚ) (n : ℕ) (d : SDate)
    (hP : 0 < P) (hrate : 0 ≤ rate) (hn : 1 ≤ n) :
    (List.Chain (fun a b => b ≤ a) (round2 P)
        ((calculatePRICE P rate n d).map Installment.balance)
      ∧ (∀ b ∈ (calculatePRICE P rate n d).map Installment.balance, 0 ≤ b)
      ∧ ((calculatePRICE P rate n d).map Installment.balance).getLast?
          = some 0)
    ∧ (List.Chain (fun a b => b ≤ a) (round2 P)
        ((calculateSAC P rate n d).map Installment.balance)
      ∧ (∀ b ∈ (calculateSAC P rate n d).map Installment.balance, 0 ≤ b)
      ∧ ((calculateSAC P rate n d).map Installment.balance).getLast?
          = some 0) := by
  have hnQ : (0 : ℚ) < (n : ℚ) := by
    exact_mod_cast Nat.lt_of_lt_of_le Nat.zero_lt_one hn
  have hr : 0 ≤ rate / 100 / 12 := by positivity
  refine ⟨⟨?_, ?_, ?_⟩, ⟨?_, ?_, ?_⟩⟩
  · rw [calculatePRICE_eq_spec]
    exact priceRows_balance_chain _ _ _ P hr
      (specPMT_ge P _ n hP hr hn) n 1 P (le_of_lt hP) (le_refl P)
  · rw [calculatePRICE_eq_spec]
    exact fun b h => priceRows_balance_nonneg _ _ _ _ _ _ _ h
  · rw [calculatePRICE_eq_spec, priceRows_last_balance _ _ _ n 1 P hn,
      specBalance_final P _ n hP hr hn, round2_zero]
  · rw [calculateSAC_def]
    exact sacRows_balance_chain _ _ _ (le_of_lt (div_pos hP hnQ)) n 1 P
      (le_of_lt hP)
  · rw [calculateSAC_def]
    exact fun b h => sacRows_balance_nonneg _ _ _ _ _ _ _ h
  · rw [calculateSAC_def, sacRows_last_balance _ _ _ n 1 P hn,
      sacBalance_final P n hP hn, round2_zero]

/-- Witness for the amended C3 at principal 1000, annualRate 12,
termMonths 12: both systems end with stored balance 0. -/
theorem claim_C3_balance_invariants_witness :
    ((calculatePRICE 1000 12 12 ⟨2024, 1, 1⟩).map Installment.balance).getLast?
        = some 0
      ∧ ((calculateSAC 1000 12 12 ⟨2024, 1, 1⟩).map
          Installment.balance).getLast? = some 0 :=
  ⟨(claim_C3_balance_invariants 1000 12 12 ⟨2024, 1, 1⟩ (by norm_num)
      (by norm_num) (by norm_num)).1.2.2,
    (claim_C3_balance_invariants 1000 12 12 ⟨2024, 1, 1⟩ (by norm_num)
      (by norm_num) (by norm_num)).2.2.2⟩

/-! ### Status refresher (claim C4) -/

/-- `updateInstallmentStatuses(installments)`: recompute pending/overdue
against today's ISO date, leaving paid installments untouched.  The source
reads `today` from the clock (`new Date().toISOString().split('T')[0]`);
it is injected here, and `<` is the lexicographic comparison JavaScript
applies to the ISO date strings. -/
def updateInstallmentStatuses (installments : List Installment)
    (today : String) : List Installment :=
  installments.map (fun installment =>
    if installment.status = .paid then installment
    else if installment.dueDate < today then
      { installment with status := .overdue }
    else
      { installment with status := .pending })

/-- **C4.** For every installment list and every fixed today, the status
refresher is idempotent, leaves every paid installment unchanged
regardless of its dueDate, and sets every non-paid installment's status to
overdue exactly when `dueDate < today` (lexicographic ISO comparison) and
to pending otherwise, altering no other field. -/
theorem claim_C4_status_refresher (l : List Installment) (today : String) :
    updateInstallmentStatuses (updateInstallmentStatuses l today) today
        = updateInstallmentStatuses l today
      ∧ updateInstallmentStatuses l today = l.map (fun inst =>
          if inst.status = .paid then inst
          else { inst with
            status := if inst.dueDate < today then .overdue else .pending }) := by
  constructor
  · unfold updateInstallmentStatuses
    rw [List.map_map]
    apply List.map_congr_left
    intro inst _
    simp only [Function.comp_apply]
    by_cases hp : inst.status = .paid
    · simp only [if_pos hp]
    · simp only [if_neg hp]
      by_cases hd : inst.dueDate < today
      · simp only [if_pos hd]
        have hp2 : ¬ ({ inst with status := IStatus.overdue } :
            Installment).status = IStatus.paid := fun h => IStatus.noConfusion h
        have hd2 : ({ inst with status := IStatus.overdue } :
            Installment).dueDate < today := hd
        simp only [if_neg hp2, if_pos hd2]
      · simp only [if_neg hd]
        have hp2 : ¬ ({ inst with status := IStatus.pending } :
            Installment).status = IStatus.paid := fun h => IStatus.noConfusion h
        have hd2 : ¬ ({ inst with status := IStatus.pending } :
            Installment).dueDate < today := hd
        simp only [if_neg hp2, if_neg hd2]
  · unfold updateInstallmentStatuses
    apply List.map_congr_left
    intro inst _
    by_cases hp : inst.status = .paid
    · simp only [if_pos hp]
    · simp only [if_neg hp]
      by_cases hd : inst.dueDate < today
      · simp only [if_pos hd]
      · simp only [if_neg hd]

/-! ### Financing records, summary aggregator, refinance simulator and the
stateful manager (src/js/models/FinancingManager.js) -/

/-- One financing record, mirroring the object built by `addFinancing`.
`id` generation and `createdAt` read clock/randomness in the source, so
both are injected at the call sites. -/
structure Financing where
  id : String
  name : String
  type : String
  principal : ℚ
  annualRate : ℚ
  monthlyRate : ℚ
  termMonths : ℕ
  system : String
  cetRate : Option ℚ
  startDate : String
  paidInstallments : ℕ
  anticipatedInstallments : ℕ
  installments : List Installment
  createdAt : String
deriving DecidableEq, Repr

structure FinancingSummary where
  principal : ℚ
  totalPayment : ℚ
  totalInterest : ℚ
  paidCount : ℕ
  pendingCount : ℕ
  overdueCount : ℕ
  paidAmount : ℚ
  remainingBalance : ℚ
  progressPercent : ℚ
deriving DecidableEq, Repr

/-- `calculateFinancingSummary(installments, principal)`.  On an empty
list the source's `progressPercent` is `NaN` (0/0); division by zero in ℚ
yields 0 instead — no claim touches that corner. -/
def calculateFinancingSummary (installments : List Installment)
    (principal : ℚ) : FinancingSummary :=
  let totalPayment := (installments.map Installment.payment).sum
  let totalInterest := (installments.map Installment.interest).sum
  let paidInstallments :=
    installments.filter (fun i => decide (i.status = IStatus.paid))
  let pendingInstallments :=
    installments.filter (fun i => decide (i.status = IStatus.pending))
  let overdueInstallments :=
    installments.filter (fun i => decide (i.status = IStatus.overdue))
  let paidAmount := (paidInstallments.map Installment.payment).sum
  let remainingBalance :=
    match pendingInstallments.head? with
    | some first => first.balance + first.principal
    | none => 0
  { principal := round2 principal
    totalPayment := round2 totalPayment
    totalInterest := round2 totalInterest
    paidCount := paidInstallments.length
    pendingCount := pendingInstallments.length
    overdueCount := overdueInstallments.length
    paidAmount := round2 paidAmount
    remainingBalance := round2 remainingBalance
    progressPercent :=
      round2 ((paidInstallments.length : ℚ) / installments.length * 100) }

def leastExpAux (g c : ℚ) : ℕ → ℚ → ℕ → ℕ
  | 0, _, m => m
  | fuel + 1, p, m => if c ≤ p then m else leastExpAux g c fuel (p * g) (m + 1)

def leastDecAux (g c : ℚ) : ℕ → ℚ → ℕ → ℕ
  | 0, _, m => m
  | fuel + 1, p, m => if p ≤ c then m else leastDecAux g c fuel (p * g) (m + 1)

/-- Number of fixed payments `pmt` needed to amortize balance `B` at rate
`r`; models the source's
`Math.ceil(-Math.log(1 - B·r/pmt) / Math.log(1 + r))` at every
terminating input (the caller's payoff guard gives `B > 0` here):
* `r > 0` — then `0 < B·r < pmt` behind the caller's interest guard, and
  the ceiling equals the least `m` with `(1+r)^m ≥ pmt/(pmt − B·r)`,
  which the ascending bounded search computes exactly (the fuel suffices
  because `(1+r)^m ≥ 1 + m·r`);
* `r = 0` — the source divides by `Math.log(1) = 0` and the resulting
  `NaN` term makes the generation loop emit no rows: term 0;
* `-1 < r < 0` with `pmt < 0` — then `1 − B·r/pmt ≤ 0`, `Math.log` gives
  `NaN`, no rows: term 0;
* `-1 < r < 0` with `pmt > 0` — both logs are of values in `(0,1)`, the
  quotient is positive and finite, and the ceiling equals the least `m`
  with `(1+r)^m ≤ pmt/(pmt − B·r)` (a target in `(0,1)`), which the
  descending bounded search computes exactly (the fuel suffices because
  `(1−s)^m ≤ 1/(1 + m·s)` for `s = −r ∈ (0,1)`);
* `r ≤ -1` — `Math.log(1+r)` is `-Infinity` (at `r = -1`) or `NaN`, the
  term is `±0` or `NaN`, no rows: term 0.
The one remaining corner, `-1 < r < 0` with `pmt = 0`, makes the source's
term `+Infinity` and its generation loop never returns; it is excluded
from every claim via `simHangs` below, and this total model returns 0
there.  The `r > 0 ∧ pmt ≤ B·r` branch is unreachable behind the
caller's guard. -/
def annuityTerm (B r pmt : ℚ) : ℕ :=
  if 0 < r then
    if pmt ≤ B * r then 0
    else
      let c := pmt / (pmt - B * r)
      leastExpAux (1 + r) c ((⌈(c - 1) / r⌉).toNat + 1) 1 0
  else if -1 < r ∧ r < 0 then
    let c := pmt / (pmt - B * r)
    if c ≤ 0 then 0
    else leastDecAux (1 + r) c ((⌈(1 / c - 1) / (-r)⌉).toNat + 1) 1 0
  else 0

/-- Result of `simulateExtraAmortization` (the source's object also
carries the strategy string back; no claim mentions it). -/
structure SimResult where
  newInstallments : List Installment
  savingsInterest : ℚ
  savingsMonths : ℤ
  newTerm : ℕ
deriving DecidableEq, Repr

/-- `simulateExtraAmortization(currentFinancing, extraAmount, strategy)`:
pure simulation; `today` (the source's `new Date()` anchor for the new
sub-schedule) is injected.  `strategy` and `system` stay strings: any
strategy other than "reduce_payment" falls to the reduce-term branch and
any system other than "PRICE" to the SAC branch, as in the source.
At the two reduce-term inputs marked by `simHangs` below (a zero SAC
divisor, or a zero held payment at a negative monthly rate above -100%)
the source's generation loop never returns; this total model still
yields a value there (ℚ totalizes `x / 0 = 0`), so every theorem about
the simulator either assumes `simHangs` is false or has hypotheses that
force it to be. -/
def simulateExtraAmortization (currentFinancing : Financing)
    (extraAmount : ℚ) (strategy : String) (today : SDate) :
    Option SimResult :=
  let installments := currentFinancing.installments
  let paidInstallments :=
    installments.filter (fun i => decide (i.status = IStatus.paid))
  let pendingInstallments :=
    installments.filter (fun i => decide (¬ i.status = IStatus.paid))
  match pendingInstallments with
  | [] => none
  | first :: restPending =>
    let currentBalance :=
      match paidInstallments.getLast? with
      | some last => last.balance
      | none => currentFinancing.principal
    let newBalance := max 0 (currentBalance - extraAmount)
    let monthlyRate := currentFinancing.annualRate / 100 / 12
    let oldTerm := (first :: restPending).length
    if newBalance ≤ 0 then
      some { newInstallments := []
             savingsInterest :=
               ((first :: restPending).map Installment.interest).sum
             savingsMonths := (oldTerm : ℤ)
             newTerm := 0 }
    else
      let newInstallments :=
        if strategy = "reduce_payment" then
          if currentFinancing.system = "PRICE" then
            calculatePRICE newBalance currentFinancing.annualRate oldTerm today
          else
            calculateSAC newBalance currentFinancing.annualRate oldTerm today
        else
          if currentFinancing.system = "PRICE" then
            let pmt := first.payment
            if pmt ≤ newBalance * monthlyRate then
              calculatePRICE newBalance currentFinancing.annualRate oldTerm
                today
            else
              calculatePRICE newBalance currentFinancing.annualRate
                (annuityTerm newBalance monthlyRate pmt) today
          else
            let oldAmortization := first.principal
            calculateSAC newBalance currentFinancing.annualRate
              (⌈newBalance / oldAmortization⌉.toNat) today
      let originalInterest :=
        ((first :: restPending).map Installment.interest).sum
      let newInterest := (newInstallments.map Installment.interest).sum
      some { newInstallments := newInstallments
             savingsInterest := round2 (originalInterest - newInterest)
             savingsMonths := (oldTerm : ℤ) - newInstallments.length
             newTerm := newInstallments.length }

/-- The two inputs at which the source's `simulateExtraAmortization` does
not terminate (both in the reduce-term branch, reached with a positive
remaining balance):
* system SAC: `Math.ceil(newBalance / oldAmortization)` with divisor
  `oldAmortization = 0` is `Infinity`, and the `calculateSAC` loop
  `for (i = 1; i <= Infinity; i++)` never returns;
* system PRICE with `-1 < monthlyRate < 0` and held payment 0: the term
  `-Math.log(1 - newBalance·r/0) / Math.log(1+r)` is `+Infinity`, and
  the `calculatePRICE` loop never returns (the interest guard
  `newBalance·r ≥ 0` is false for a negative rate, so the formula branch
  is taken).
The total model `simulateExtraAmortization` returns a value at these
inputs too, so theorems about the simulator either assume this predicate
is false or carry hypotheses that force it to be.  (A JavaScript `-0`
stored component would in fact produce an empty schedule; the predicate
conservatively counts it with the hang case, which only narrows the
claims.) -/
def simHangs (f : Financing) (extraAmount : ℚ) (strategy : String) : Bool :=
  let paidInstallments :=
    f.installments.filter (fun i => decide (i.status = IStatus.paid))
  let pendingInstallments :=
    f.installments.filter (fun i => decide (¬ i.status = IStatus.paid))
  match pendingInstallments with
  | [] => false
  | first :: _ =>
    let currentBalance :=
      match paidInstallments.getLast? with
      | some last => last.balance
      | none => f.principal
    let newBalance := max 0 (currentBalance - extraAmount)
    let monthlyRate := f.annualRate / 100 / 12
    if newBalance ≤ 0 then false
    else if strategy = "reduce_payment" then false
    else if f.system = "PRICE" then
      decide (first.payment = 0 ∧ -1 < monthlyRate ∧ monthlyRate < 0)
    else
      decide (first.principal = 0)

/-- `getFinancing(id)`: first record with the given id. -/
def getFinancing (financings : List Financing) (id : String) :
    Option Financing :=
  financings.find? (fun f => f.id == id)

/-- In-place mutation of the first element satisfying `p` (the JS pattern
`find(...)` / `findIndex(...)` followed by assignment). -/
def setFirst {α : Type} (p : α → Bool) (g : α → α) : List α → List α
  | [] => []
  | x :: xs => if p x then g x :: xs else x :: setFirst p g xs

inductive ApplyOutcome where
  | notFound
  | simError (msg : String)
  | applied (newTerm : ℕ) (savingsInterest : ℚ) (savingsMonths : ℤ)
deriving DecidableEq, Repr

/-- `applyExtraAmortization(id, extraAmount, strategy)`: runs the
simulation and splices its result into the stored financing.  Returns the
new collection plus the outcome (null for unknown id, a thrown domain
error when the simulation returns null — in both cases the collection is
the input one, as the source mutates nothing before those exits). -/
def applyExtraAmortization (financings : List Financing) (id : String)
    (extraAmount : ℚ) (strategy : String) (today : SDate) :
    List Financing × ApplyOutcome :=
  match getFinancing financings id with
  | none => (financings, .notFound)
  | some financing =>
    match simulateExtraAmortization financing extraAmount strategy today with
    | none => (financings, .simError "Não foi possível realizar a simulação.")
    | some simulation =>
      let paidInstallments :=
        financing.installments.filter (fun i => decide (i.status = IStatus.paid))
      let lastNumber :=
        match paidInstallments.getLast? with
        | some last => last.number
        | none => 0
      let activeNewInstallments := simulation.newInstallments.map
        (fun i => { i with number := i.number + lastNumber })
      let finalInstallments := paidInstallments ++ activeNewInstallments
      let updated := { financing with
        installments := finalInstallments
        termMonths := finalInstallments.length }
      (setFirst (fun f => f.id == id) (fun _ => updated) financings,
        .applied finalInstallments.length simulation.savingsInterest
          simulation.savingsMonths)

/-- `markInstallmentPaid(financingId, installmentNumber, paidDate,
transactionId)`: `today` (the source's default paid date) is injected.
`paidDate || today` becomes `paidDate.getD today`, and
`linkedTransactionId` is overwritten unconditionally with the supplied
transaction id (null when omitted), exactly as in the source. -/
def markInstallmentPaid (financings : List Financing) (financingId : String)
    (installmentNumber : ℕ) (paidDate : Option String)
    (transactionId : Option String) (today : String) :
    List Financing × Bool :=
  match getFinancing financings financingId with
  | none => (financings, false)
  | some financing =>
    match financing.installments.find? (fun i => i.number == installmentNumber) with
    | none => (financings, false)
    | some _ =>
      let newInstallments := setFirst (fun i => i.number == installmentNumber)
        (fun inst => { inst with
          status := .paid
          paidDate := some (paidDate.getD today)
          linkedTransactionId := transactionId }) financing.installments
      (setFirst (fun f => f.id == financingId)
        (fun _ => { financing with installments := newInstallments }) financings,
        true)

/-- `linkTransaction(financingId, installmentNumber, transactionId)` just
delegates to `markInstallmentPaid` with no paid date. -/
def linkTransaction (financings : List Financing) (financingId : String)
    (installmentNumber : ℕ) (transactionId : String) (today : String) :
    List Financing × Bool :=
  markInstallmentPaid financings financingId installmentNumber none
    (some transactionId) today

/-- Strict `YYYY-MM-DD` parse.  Models the source's
`new Date(startDate + 'T00:00:00')` boundary: the claims only need that
well-formed ISO dates parse and that an unparseable string makes the date
conversion inside the generation loop throw. -/
def parseISODate (s : String) : Option SDate :=
  match s.splitOn "-" with
  | [y, m, d] =>
    match y.toNat?, m.toNat?, d.toNat? with
    | some yn, some mn, some dn =>
        if y.length = 4 ∧ m.length = 2 ∧ d.length = 2 ∧ 1 ≤ mn ∧ mn ≤ 12
            ∧ 1 ≤ dn ∧ dn ≤ daysInMonth yn mn then
          some ⟨yn, mn, dn⟩
        else none
    | _, _, _ => none
  | _ => none

/-- `generateAmortizationTable(system, principal, annualRate, termMonths,
startDate)`: dispatch on the system string, unknown systems throw.  An
unparseable start date makes `toISOString` throw inside the first loop
iteration — unless the loop never runs (`termMonths = 0`), in which case
the source returns an empty schedule. -/
def generateAmortizationTable (system : String) (principal annualRate : ℚ)
    (termMonths : ℕ) (startDate : String) :
    Except String (List Installment) :=
  if system = "PRICE" then
    match parseISODate startDate with
    | some d => .ok (calculatePRICE principal annualRate termMonths d)
    | none =>
        if termMonths = 0 then .ok [] else .error "Invalid time value"
  else if system = "SAC" then
    match parseISODate startDate with
    | some d => .ok (calculateSAC principal annualRate termMonths d)
    | none =>
        if termMonths = 0 then .ok [] else .error "Invalid time value"
  else .error ("Sistema de amortização desconhecido: " ++ system)

/-- Input of `addFinancing` (the destructured `data` argument). -/
structure FinancingInput where
  name : String
  type : Option String
  principal : ℚ
  annualRate : ℚ
  termMonths : ℕ
  system : String
  cetRate : Option ℚ
  startDate : String
  paidInstallments : ℕ
  anticipatedInstallments : ℕ
deriving DecidableEq, Repr

/-- Marks the first `k` installments as pre-paid
(`status = paid, paidDate = dueDate`), as the loop in `addFinancing`. -/
def markFirstPaid : List Installment → ℕ → List Installment
  | l, 0 => l
  | [], _ + 1 => []
  | inst :: rest, k + 1 =>
      { inst with status := .paid, paidDate := some inst.dueDate }
        :: markFirstPaid rest k

/-- `addFinancing(data)`: generates the schedule, marks the pre-paid
installments, builds the record, appends and returns it.  `newId` and
`createdAt` (randomness and clock in the source) are injected.  Note: the
source performs no input validation here. -/
def addFinancing (financings : List Financing) (data : FinancingInput)
    (newId createdAt : String) :
    Except String (List Financing × Financing) :=
  match generateAmortizationTable data.system data.principal data.annualRate
      data.termMonths data.startDate with
  | .error e => .error e
  | .ok installments0 =>
    let totalPaid := data.paidInstallments + data.anticipatedInstallments
    let installments := markFirstPaid installments0 totalPaid
    let financing : Financing :=
      { id := newId
        name := data.name
        type := data.type.getD "other"
        principal := data.principal
        annualRate := data.annualRate
        monthlyRate := data.annualRate / 12
        termMonths := data.termMonths
        system := data.system
        cetRate := data.cetRate
        startDate := data.startDate
        paidInstallments := data.paidInstallments
        anticipatedInstallments := data.anticipatedInstallments
        installments := installments
        createdAt := createdAt }
    .ok (financings ++ [financing], financing)

/-! ### Claim C8: remaining balance in the summary -/

/-- A single overdue installment: not paid, yet not status-"pending"
either, so the summary's pending sub-list is empty. -/
def exOverdueInst : Installment :=
  { number := 1, dueDate := "2020-01-01", principal := 100, interest := 1,
    payment := 101, balance := 500, status := .overdue, paidDate := none,
    linkedTransactionId := none }

/-- A pending installment whose stored figures are not 2-decimal values
(possible since the summary is quantified over every installment list). -/
def exTinyInst : Installment :=
  { number := 1, dueDate := "2024-01-01", principal := 1 / 250,
    interest := 0, payment := 1 / 250, balance := 1 / 250,
    status := .pending, paidDate := none, linkedTransactionId := none }

/-- Counterexample to C8 as frozen: (i) a financing holding one overdue
installment has remainingBalance 0 although it is not fully paid — so
"remainingBalance = 0 exactly when fully paid" fails; (ii) with
non-2-decimal stored figures the computed remainingBalance is the rounded
sum 0.01, not the exact sum 0.008. -/
theorem claim_C8_counterexample :
    ((calculateFinancingSummary [exOverdueInst] 1000).remainingBalance = 0
      ∧ ¬ exOverdueInst.status = IStatus.paid)
    ∧ (calculateFinancingSummary [exTinyInst] 1).remainingBalance
        ≠ exTinyInst.balance + exTinyInst.principal := by
  refine ⟨⟨?_, ?_⟩, ?_⟩
  · with_unfolding_all rfl
  · intro h; exact IStatus.noConfusion h
  · with_unfolding_all decide

/-- **C8** (amended): the summary's remainingBalance is
`round2 (pending[0].balance + pending[0].principalComponent)` where
pending is the sub-list with status exactly "pending" (in order), and it
is 0 when that sub-list is empty — in particular when the financing is
fully paid.  (The frozen claim's unrounded equality and its "exactly when
fully paid" biconditional both fail, see the counterexample: overdue
installments are neither pending nor paid.) -/
theorem claim_C8_remaining_balance (installments : List Installment)
    (P : ℚ) :
    (∀ first rest,
      installments.filter (fun i => decide (i.status = IStatus.pending))
          = first :: rest →
        (calculateFinancingSummary installments P).remainingBalance
          = round2 (first.balance + first.principal))
    ∧ (installments.filter (fun i => decide (i.status = IStatus.pending)) = [] →
        (calculateFinancingSummary installments P).remainingBalance = 0)
    ∧ ((∀ i ∈ installments, i.status = IStatus.paid) →
        (calculateFinancingSummary installments P).remainingBalance = 0) := by
  have hrb : (calculateFinancingSummary installments P).remainingBalance
      = round2 (match (installments.filter
          (fun i => decide (i.status = IStatus.pending))).head? with
        | some first => first.balance + first.principal
        | none => 0) := rfl
  have hnone : installments.filter
        (fun i => decide (i.status = IStatus.pending)) = [] →
      (calculateFinancingSummary installments P).remainingBalance = 0 := by
    intro h
    rw [hrb, h]
    exact round2_zero
  refine ⟨?_, hnone, ?_⟩
  · intro first rest h
    rw [hrb, h]
    rfl
  · intro hall
    apply hnone
    apply List.filter_eq_nil_iff.mpr
    intro i hi
    rw [hall i hi]
    decide

/-- Witness for the amended C8: one pending installment with balance 920
and principal component 80 gives remainingBalance 1000. -/
theorem claim_C8_remaining_balance_witness :
    (calculateFinancingSummary
        [{ number := 1, dueDate := "2024-02-01", principal := 80,
           interest := 10, payment := 90, balance := 920,
           status := .pending, paidDate := none,
           linkedTransactionId := none }] 1000).remainingBalance
      = round2 (920 + 80) :=
  (claim_C8_remaining_balance _ 1000).1 _ _ (by with_unfolding_all rfl)

/-! ### Claim C6: no-pending guard -/

/-- **C6.** For every financing in which every installment is paid, the
simulator returns the null sentinel for every extraAmount and strategy
(without throwing — it is a total function); and applyExtraAmortization on
it produces the domain error while the stored collection is returned
unchanged. -/
theorem claim_C6_no_pending_guard (fs : List Financing) (id : String)
    (f : Financing) (extra : ℚ) (strat : String) (today : SDate)
    (hf : getFinancing fs id = some f)
    (hpaid : ∀ i ∈ f.installments, i.status = IStatus.paid) :
    simulateExtraAmortization f extra strat today = none
    ∧ applyExtraAmortization fs id extra strat today
        = (fs, .simError "Não foi possível realizar a simulação.") := by
  have hemp : f.installments.filter
      (fun i => decide (¬ i.status = IStatus.paid)) = [] := by
    apply List.filter_eq_nil_iff.mpr
    intro i hi
    rw [hpaid i hi]
    decide
  have hsim : simulateExtraAmortization f extra strat today = none := by
    unfold simulateExtraAmortization
    simp only [hemp]
  refine ⟨hsim, ?_⟩
  unfold applyExtraAmortization
  rw [hf]
  simp only [hsim]

/-- A paid installment with balance 0, used by concrete instances. -/
def exPaidInst : Installment :=
  { number := 1, dueDate := "2024-02-01", principal := 100, interest := 1,
    payment := 101, balance := 0, status := .paid,
    paidDate := some "2024-02-01", linkedTransactionId := none }

/-- Fully paid one-installment financing for the C6 witness. -/
def exPaidFin : Financing :=
  { id := "f1", name := "casa", type := "house", principal := 100,
    annualRate := 12, monthlyRate := 1, termMonths := 1, system := "PRICE",
    cetRate := none, startDate := "2024-01-01", paidInstallments := 1,
    anticipatedInstallments := 0, installments := [exPaidInst],
    createdAt := "2024-01-01" }

/-- Witness for C6 on a concrete fully-paid financing. -/
theorem claim_C6_no_pending_guard_witness :
    simulateExtraAmortization exPaidFin 50 "reduce_term" ⟨2024, 6, 1⟩ = none
    ∧ applyExtraAmortization [exPaidFin] "f1" 50 "reduce_term" ⟨2024, 6, 1⟩
        = ([exPaidFin], .simError "Não foi possível realizar a simulação.") :=
  claim_C6_no_pending_guard [exPaidFin] "f1" exPaidFin 50 "reduce_term"
    ⟨2024, 6, 1⟩ (by with_unfolding_all rfl)
    (by intro i hi
        have : i = exPaidInst := List.mem_singleton.mp hi
        rw [this]
        rfl)

/-! ### Claim C10: marking installments paid -/

/-- If `p` is stable under `g` on elements satisfying it, `setFirst`
transports the first `p`-match through `find?`. -/
theorem find?_setFirst_some {α : Type} (p : α → Bool) (g : α → α)
    (hg : ∀ x, p x = true → p (g x) = true) :
    ∀ (l : List α) (y : α), l.find? p = some y →
      (setFirst p g l).find? p = some (g y) := by
  intro l
  induction l with
  | nil => intro y h; simp [List.find?] at h
  | cons x xs ih =>
      intro y h
      by_cases hpx : p x = true
      · rw [List.find?_cons_of_pos _ hpx] at h
        cases h
        rw [setFirst, if_pos hpx]
        exact List.find?_cons_of_pos _ (hg x hpx)
      · have hpx' : ¬ p x = true := hpx
        rw [List.find?_cons_of_neg _ hpx'] at h
        rw [setFirst, if_neg hpx']
        rw [List.find?_cons_of_neg _ hpx']
        exact ih y h

/-- The three mutation lines of `markInstallmentPaid` applied to the
found installment. -/
def payFields (pd tx : Option String) (today : String)
    (inst : Installment) : Installment :=
  { inst with status := .paid, paidDate := some (pd.getD today), linkedTransactionId := tx }

/-- The financing as left by a successful `markInstallmentPaid`. -/
def markResult (f : Financing) (num : ℕ) (pd tx : Option String)
    (today : String) : Financing :=
  { f with installments := setFirst (fun i => i.number == num) (payFields pd tx today) f.installments }

/-- **C10.** For every collection, financing id present in it and
installment number present in that financing, markInstallmentPaid succeeds
(also when the installment is already paid — no hypothesis restricts its
current status), sets status = paid, overwrites paidDate with the supplied
date or today when omitted, and unconditionally overwrites
linkedTransactionId with the supplied transaction id or null when omitted;
and linkTransaction is exactly markInstallmentPaid with no paid date, so
on an already-paid installment it resets paidDate to today and replaces
any stored linkedTransactionId. -/
theorem claim_C10_mark_paid (fs : List Financing) (fid : String) (num : ℕ)
    (f : Financing) (inst : Installment) (pd tx : Option String)
    (today : String)
    (hf : getFinancing fs fid = some f)
    (hi : f.installments.find? (fun i => i.number == num) = some inst) :
    (markInstallmentPaid fs fid num pd tx today).2 = true
    ∧ (getFinancing (markInstallmentPaid fs fid num pd tx today).1 fid).map
        (fun f2 => f2.installments.find? (fun i => i.number == num))
      = some (some (payFields pd tx today inst))
    ∧ ∀ txid, linkTransaction fs fid num txid today
        = markInstallmentPaid fs fid num none (some txid) today := by
  have hres : markInstallmentPaid fs fid num pd tx today
      = (setFirst (fun g => g.id == fid) (fun _ => markResult f num pd tx today) fs, true) := by
    unfold markInstallmentPaid
    rw [hf]
    simp only [hi]
    rfl
  refine ⟨by rw [hres], ?_, fun txid => rfl⟩
  rw [hres]
  have hgf : getFinancing (setFirst (fun g => g.id == fid)
        (fun _ => markResult f num pd tx today) fs, true).1 fid
      = some (markResult f num pd tx today) := by
    have h2 : List.find? (fun g => g.id == fid) fs = some f := hf
    have hpf := List.find?_some h2
    exact find?_setFirst_some (fun g : Financing => g.id == fid)
      (fun _ => markResult f num pd tx today) (fun x _ => hpf) fs f h2
  rw [hgf]
  exact congrArg some
    (find?_setFirst_some (fun i => i.number == num) (payFields pd tx today)
      (fun x hx => hx) f.installments inst hi)

/-- Witness for C10: re-marking the already-paid installment of
`exPaidFin` succeeds, stamps today's date and replaces the stored
transaction link. -/
theorem claim_C10_mark_paid_witness :
    (markInstallmentPaid [exPaidFin] "f1" 1 none (some "tx9")
        "2024-06-01").2 = true
    ∧ (getFinancing (markInstallmentPaid [exPaidFin] "f1" 1 none
          (some "tx9") "2024-06-01").1 "f1").map
        (fun f2 => f2.installments.find? (fun i => i.number == 1))
      = some (some (payFields none (some "tx9") "2024-06-01" exPaidInst)) :=
  have h := claim_C10_mark_paid [exPaidFin] "f1" 1 exPaidFin exPaidInst none
    (some "tx9") "2024-06-01" (by with_unfolding_all rfl)
    (by with_unfolding_all rfl)
  ⟨h.1, h.2.1⟩

/-! ### Claim C5: addFinancing input validation -/

theorem generateAmortizationTable_price (P rate : ℚ) (n : ℕ) (s : String)
    (d : SDate) (hd : parseISODate s = some d) :
    generateAmortizationTable "PRICE" P rate n s
      = .ok (calculatePRICE P rate n d) := by
  unfold generateAmortizationTable
  rw [if_pos rfl, hd]

theorem generateAmortizationTable_sac (P rate : ℚ) (n : ℕ) (s : String)
    (d : SDate) (hd : parseISODate s = some d) :
    generateAmortizationTable "SAC" P rate n s
      = .ok (calculateSAC P rate n d) := by
  unfold generateAmortizationTable
  rw [if_neg (by decide : ¬ ("SAC" : String) = "PRICE"), if_pos rfl, hd]

theorem generateAmortizationTable_price_err (P rate : ℚ) (n : ℕ) (s : String)
    (hd : parseISODate s = none) (hn : 1 ≤ n) :
    generateAmortizationTable "PRICE" P rate n s
      = .error "Invalid time value" := by
  unfold generateAmortizationTable
  rw [if_pos rfl, hd, if_neg (by omega : ¬ n = 0)]

theorem generateAmortizationTable_sac_err (P rate : ℚ) (n : ℕ) (s : String)
    (hd : parseISODate s = none) (hn : 1 ≤ n) :
    generateAmortizationTable "SAC" P rate n s
      = .error "Invalid time value" := by
  unfold generateAmortizationTable
  rw [if_neg (by decide : ¬ ("SAC" : String) = "PRICE"), if_pos rfl, hd,
    if_neg (by omega : ¬ n = 0)]

/-- Malformed creation input: negative principal (its startDate parses
and its system is known, so only the principal is at issue). -/
def exBadInput : FinancingInput :=
  { name := "junk", type := none, principal := -100, annualRate := 12,
    termMonths := 2, system := "PRICE", cetRate := none,
    startDate := "2024-01-01", paidInstallments := 0,
    anticipatedInstallments := 0 }

/-- Counterexample to C5 as frozen: `addFinancing` accepts a negative
principal without any validation error and appends the record (collection
grows from 0 to 1 entries), contradicting "rejects the input with a
validation error before any schedule is generated, and no partial
financing record is appended". -/
theorem claim_C5_counterexample :
    (addFinancing [] exBadInput "id1" "2024-06-01").map
        (fun res => res.1.length) = .ok 1
    ∧ exBadInput.principal = -100 := by
  constructor
  · with_unfolding_all rfl
  · rfl

/-- **C5** (amended): `addFinancing` performs no input validation: for
every input whose startDate parses and whose system is PRICE or SAC —
whatever its name, principal, annualRate or termMonths — it generates the
schedule, appends exactly one record and returns it; only an unparseable
startDate (with termMonths ≥ 1, so the generation loop runs) makes it
fail, and then nothing is appended.  (Field validation lives in the UI
caller, not in the manager's addFinancing, contrary to the frozen
claim — see the counterexample.) -/
theorem claim_C5_add_financing (fs : List Financing) (data : FinancingInput)
    (newId createdAt : String) :
    (∀ d, parseISODate data.startDate = some d →
      data.system = "PRICE" ∨ data.system = "SAC" →
      ∃ rec, addFinancing fs data newId createdAt = .ok (fs ++ [rec], rec))
    ∧ (parseISODate data.startDate = none → 1 ≤ data.termMonths →
      data.system = "PRICE" ∨ data.system = "SAC" →
      ∃ e, addFinancing fs data newId createdAt = .error e) := by
  constructor
  · intro d hd hsys
    unfold addFinancing
    rcases hsys with h | h
    · rw [h, generateAmortizationTable_price _ _ _ _ _ hd]
      exact ⟨_, rfl⟩
    · rw [h, generateAmortizationTable_sac _ _ _ _ _ hd]
      exact ⟨_, rfl⟩
  · intro hd hn hsys
    unfold addFinancing
    rcases hsys with h | h
    · rw [h, generateAmortizationTable_price_err _ _ _ _ hd hn]
      exact ⟨_, rfl⟩
    · rw [h, generateAmortizationTable_sac_err _ _ _ _ hd hn]
      exact ⟨_, rfl⟩

/-- Witness for the amended C5: the malformed input (negative principal)
is appended without any rejection. -/
theorem claim_C5_add_financing_witness :
    ∃ rec, addFinancing [] exBadInput "id1" "2024-06-01"
      = .ok ([] ++ [rec], rec) :=
  (claim_C5_add_financing [] exBadInput "id1" "2024-06-01").1 ⟨2024, 1, 1⟩
    (by with_unfolding_all rfl) (Or.inl rfl)

/-! ### Claim C7: renumbering after an applied amortization -/

theorem calculatePRICE_numbering (P rate : ℚ) (n : ℕ) (d : SDate) :
    (calculatePRICE P rate n d).map Installment.number
      = List.range' 1 (calculatePRICE P rate n d).length := by
  rw [calculatePRICE_eq_spec, priceRows_map_number, priceRows_length]

theorem calculateSAC_numbering (P rate : ℚ) (n : ℕ) (d : SDate) :
    (calculateSAC P rate n d).map Installment.number
      = List.range' 1 (calculateSAC P rate n d).length := by
  rw [calculateSAC_def, sacRows_map_number, sacRows_length]

theorem range'_one_getLast? (n : ℕ) (hn : 1 ≤ n) :
    (List.range' 1 n).getLast? = some n := by
  cases n with
  | zero => omega
  | succ n =>
      rw [List.range'_1_concat, List.getLast?_concat]
      rw [Nat.add_comm]

/-- Whenever there is a pending installment, the simulation returns a
result whose new installments are numbered contiguously from 1. -/
theorem sim_some_shape (f : Financing) (extra : ℚ) (strat : String)
    (today : SDate) (first : Installment) (restPending : List Installment)
    (hfil : f.installments.filter
        (fun i => decide (¬ i.status = IStatus.paid)) = first :: restPending) :
    ∃ res, simulateExtraAmortization f extra strat today = some res
      ∧ res.newInstallments.map Installment.number
          = List.range' 1 res.newInstallments.length := by
  unfold simulateExtraAmortization
  simp only [hfil]
  split
  · exact ⟨_, rfl, rfl⟩
  · refine ⟨_, rfl, ?_⟩
    dsimp only
    split
    · split
      · exact calculatePRICE_numbering _ _ _ _
      · exact calculateSAC_numbering _ _ _ _
    · split
      · split
        · exact calculatePRICE_numbering _ _ _ _
        · exact calculatePRICE_numbering _ _ _ _
      · exact calculateSAC_numbering _ _ _ _

/-- The renumbering step of `applyExtraAmortization`: each new
installment's number is shifted past the last paid one. -/
def renumber (k : ℕ) (l : List Installment) : List Installment :=
  l.map (fun i => { i with number := i.number + k })

/-- The financing as left by a successful `applyExtraAmortization`. -/
def spliceResult (f : Financing) (newInsts : List Installment) : Financing :=
  { f with installments := newInsts, termMonths := newInsts.length }

/-- Paid installments occurring only as a prefix is the hypothesis the
frozen C7 is missing (see the counterexample); in addition the claim can
only speak of inputs where the source terminates, so it assumes
`simHangs` is false — the model being total, that hypothesis is not
needed by the Lean proof, only for the statement to be about runs the
source completes. -/
theorem claim_C7_renumbering (fs : List Financing) (id : String)
    (f : Financing) (A B : List Installment) (extra : ℚ) (strat : String)
    (today : SDate)
    (hf : getFinancing fs id = some f)
    (hsplit : f.installments = A ++ B)
    (hA : ∀ a ∈ A, a.status = IStatus.paid)
    (hB : ∀ b ∈ B, ¬ b.status = IStatus.paid)
    (hnum : f.installments.map Installment.number
      = List.range' 1 f.installments.length)
    (hBne : B ≠ [])
    (hterm : simHangs f extra strat = false) :
    ∃ newTerm savI savM f',
      (applyExtraAmortization fs id extra strat today).2
          = .applied newTerm savI savM
      ∧ getFinancing (applyExtraAmortization fs id extra strat today).1 id
          = some f'
      ∧ f'.installments.map Installment.number = List.range' 1 newTerm
      ∧ f'.termMonths = newTerm
      ∧ f'.installments.length = newTerm
      ∧ f'.installments.take A.length = A := by
  have hfilA : f.installments.filter
      (fun i => decide (i.status = IStatus.paid)) = A := by
    rw [hsplit, List.filter_append,
      List.filter_eq_self.mpr (fun a ha => by
        simp only [decide_eq_true_eq]; exact hA a ha),
      List.filter_eq_nil_iff.mpr (fun b hb => by
        simp only [decide_eq_true_eq]; exact hB b hb),
      List.append_nil]
  have hfilB : f.installments.filter
      (fun i => decide (¬ i.status = IStatus.paid)) = B := by
    rw [hsplit, List.filter_append,
      List.filter_eq_nil_iff.mpr (fun a ha => by
        simp only [decide_eq_true_eq]; intro hcon; exact hcon (hA a ha)),
      List.filter_eq_self.mpr (fun b hb => by
        simp only [decide_eq_true_eq]; exact hB b hb),
      List.nil_append]
  have hlen : A.length + B.length = f.installments.length := by
    rw [hsplit, List.length_append]
  have hnumsplit : A.map Installment.number = List.range' 1 A.length
      ∧ B.map Installment.number
          = List.range' (1 + A.length) B.length := by
    have h1 : A.map Installment.number ++ B.map Installment.number
        = List.range' 1 A.length ++ List.range' (1 + A.length) B.length := by
      rw [← List.map_append, ← hsplit, hnum, ← hlen]
      have h := List.range'_append 1 A.length B.length 1
      rw [Nat.one_mul] at h
      rw [h, Nat.add_comm A.length B.length]
    exact List.append_inj h1 (by rw [List.length_map, List.length_range'])
  cases B with
  | nil => exact absurd rfl hBne
  | cons first rest =>
    obtain ⟨res, hsim, hshape⟩ :=
      sim_some_shape f extra strat today first rest hfilB
    have hlast : (match A.getLast? with
        | some last => last.number
        | none => 0) = A.length := by
      cases hAl : A.getLast? with
      | none =>
          rw [List.getLast?_eq_none_iff.mp hAl]
          rfl
      | some last =>
          have hne : A ≠ [] := by
            intro hcon
            rw [hcon] at hAl
            exact Option.noConfusion hAl
          have h1 : (A.map Installment.number).getLast?
              = some last.number := by
            rw [List.getLast?_map, hAl]
            rfl
          rw [hnumsplit.1, range'_one_getLast? A.length
            (by cases A with
              | nil => exact absurd rfl hne
              | cons x xs => simp)] at h1
          exact (Option.some_inj.mp h1).symm
    have happly : applyExtraAmortization fs id extra strat today
        = (setFirst (fun g => g.id == id)
            (fun _ => spliceResult f
              (A ++ renumber A.length res.newInstallments)) fs,
           .applied (A ++ renumber A.length res.newInstallments).length
             res.savingsInterest res.savingsMonths) := by
      unfold applyExtraAmortization
      rw [hf]
      simp only [hsim, hfilA, hlast]
      rfl
    refine ⟨(A ++ renumber A.length res.newInstallments).length,
      res.savingsInterest, res.savingsMonths,
      spliceResult f (A ++ renumber A.length res.newInstallments),
      by rw [happly], ?_, ?_, rfl, rfl, ?_⟩
    · rw [happly]
      have h2 : List.find? (fun g => g.id == id) fs = some f := hf
      have hpf := List.find?_some h2
      exact find?_setFirst_some (fun g : Financing => g.id == id)
        (fun _ => spliceResult f (A ++ renumber A.length res.newInstallments))
        (fun x _ => hpf) fs f h2
    · show (A ++ renumber A.length res.newInstallments).map Installment.number
        = List.range' 1 (A ++ renumber A.length res.newInstallments).length
      unfold renumber
      rw [List.map_append, List.map_map, List.length_append, List.length_map]
      have hcomp : (Installment.number ∘ fun i : Installment =>
          { i with number := i.number + A.length })
          = fun i : Installment => A.length + i.number := by
        funext i
        exact Nat.add_comm _ _
      rw [hcomp]
      have hmap2 : (res.newInstallments.map
          (fun i => A.length + i.number))
          = List.range' (1 + A.length) res.newInstallments.length := by
        have hmm : (res.newInstallments.map
            (fun i => A.length + i.number))
            = (res.newInstallments.map Installment.number).map
                (fun x => A.length + x) := by
          rw [List.map_map]
          rfl
        rw [hmm, hshape, List.map_add_range', Nat.add_comm A.length 1]
      rw [hmap2, hnumsplit.1]
      have h := List.range'_append 1 A.length res.newInstallments.length 1
      rw [Nat.one_mul] at h
      rw [h, Nat.add_comm res.newInstallments.length A.length]
    · exact List.take_left A _

def exPendingInst : Installment :=
  { number := 1, dueDate := "2024-02-01", principal := 50, interest := 1,
    payment := 51, balance := 50, status := .pending, paidDate := none,
    linkedTransactionId := none }

def exPaidInst2 : Installment :=
  { number := 2, dueDate := "2024-03-01", principal := 50, interest := 1,
    payment := 51, balance := 0, status := .paid,
    paidDate := some "2024-03-01", linkedTransactionId := none }

/-- Two-installment financing whose SECOND installment is the paid one:
numbers are contiguous 1..2, but the paid set is not a prefix. -/
def exMidPaidFin : Financing :=
  { id := "f1", name := "moto", type := "vehicle", principal := 100,
    annualRate := 12, monthlyRate := 1, termMonths := 2, system := "PRICE",
    cetRate := none, startDate := "2024-01-01", paidInstallments := 0,
    anticipatedInstallments := 0,
    installments := [exPendingInst, exPaidInst2], createdAt := "2024-01-01" }

/-- Counterexample to C7 as frozen: the paid installment is number 2 (not
a prefix); applyExtraAmortization succeeds (full payoff), keeps only the
paid installment, and the resulting numbering [2] is not contiguous from
1 although the input numbering 1..2 was. -/
theorem claim_C7_counterexample :
    (applyExtraAmortization [exMidPaidFin] "f1" 5 "reduce_term"
        ⟨2024, 6, 1⟩).2 = .applied 1 1 1
    ∧ ((applyExtraAmortization [exMidPaidFin] "f1" 5 "reduce_term"
        ⟨2024, 6, 1⟩).1.map (fun f => f.installments.map Installment.number))
      = [[2]]
    ∧ exMidPaidFin.installments.map Installment.number = List.range' 1 2
    ∧ ¬ [2] = List.range' 1 1 := by
  refine ⟨?_, ?_, ?_, ?_⟩
  · with_unfolding_all rfl
  · with_unfolding_all rfl
  · with_unfolding_all rfl
  · decide

def exPaidInst1 : Installment :=
  { number := 1, dueDate := "2024-02-01", principal := 50, interest := 1,
    payment := 51, balance := 50, status := .paid,
    paidDate := some "2024-02-01", linkedTransactionId := none }

def exPendingInst2 : Installment :=
  { number := 2, dueDate := "2024-03-01", principal := 50, interest := 1,
    payment := 51, balance := 0, status := .pending, paidDate := none,
    linkedTransactionId := none }

/-- Two-installment financing whose paid installment is a prefix. -/
def exPrefixPaidFin : Financing :=
  { id := "f1", name := "carro", type := "vehicle", principal := 100,
    annualRate := 12, monthlyRate := 1, termMonths := 2, system := "PRICE",
    cetRate := none, startDate := "2024-01-01", paidInstallments := 1,
    anticipatedInstallments := 0,
    installments := [exPaidInst1, exPendingInst2], createdAt := "2024-01-01" }

/-- Witness for the amended C7 on a concrete prefix-paid financing. -/
theorem claim_C7_renumbering_witness :
    ∃ newTerm savI savM f',
      (applyExtraAmortization [exPrefixPaidFin] "f1" 100 "reduce_term"
          ⟨2024, 6, 1⟩).2 = .applied newTerm savI savM
      ∧ getFinancing (applyExtraAmortization [exPrefixPaidFin] "f1" 100
          "reduce_term" ⟨2024, 6, 1⟩).1 "f1" = some f'
      ∧ f'.installments.map Installment.number = List.range' 1 newTerm
      ∧ f'.termMonths = newTerm
      ∧ f'.installments.length = newTerm
      ∧ f'.installments.take ([exPaidInst1] : List Installment).length
          = [exPaidInst1] :=
  claim_C7_renumbering [exPrefixPaidFin] "f1" exPrefixPaidFin [exPaidInst1]
    [exPendingInst2] 100 "reduce_term" ⟨2024, 6, 1⟩
    (by with_unfolding_all rfl) rfl
    (by intro a ha; rw [List.mem_singleton.mp ha]; rfl)
    (by intro b hb
        rw [List.mem_singleton.mp hb]
        intro h
        exact IStatus.noConfusion h)
    (by with_unfolding_all rfl)
    (by simp)
    (by with_unfolding_all rfl)

/-! ### Claim C9: reduce-term monotonicity -/

/-- The recorded SAC interest column, expressed through the running
balance chain. -/
theorem sacRows_map_interest (a r : ℚ) (s : SDate) :
    ∀ (rem i : ℕ) (bal : ℚ),
      (sacRows a r s i rem bal).map Installment.interest
        = (List.range rem).map (fun k => round2 (sacBalance bal a k * r)) := by
  intro rem
  induction rem with
  | zero => intro i bal; rfl
  | succ rem ih =>
      intro i bal
      rw [sacRows, List.range_succ_eq_map]
      simp only [List.map_cons, List.map_map]
      congr 1
      rw [ih (i + 1) (max 0 (bal - a))]
      apply List.map_congr_left
      intro k _
      simp only [Function.comp_apply]
      rw [sacBalance_shift]

theorem sum_map_range_le (g h : ℕ → ℚ) :
    ∀ n, (∀ k, k < n → g k ≤ h k) →
      ((List.range n).map g).sum ≤ ((List.range n).map h).sum := by
  intro n
  induction n with
  | zero => intro _; simp
  | succ n ih =>
      intro hp
      rw [List.range_succ, List.map_append, List.map_append,
        List.sum_append, List.sum_append]
      have h1 := ih (fun k hk => hp k (Nat.lt_trans hk (Nat.lt_succ_self n)))
      have h2 := hp n (Nat.lt_succ_self n)
      simp only [List.map_cons, List.map_nil, List.sum_cons, List.sum_nil]
      linarith

theorem sum_map_range_extend (h : ℕ → ℚ) (m L : ℕ) (hml : m ≤ L)
    (h0 : ∀ k, k < L → 0 ≤ h k) :
    ((List.range m).map h).sum ≤ ((List.range L).map h).sum := by
  obtain ⟨t, rfl⟩ : ∃ t, L = m + t := ⟨L - m, by omega⟩
  rw [List.range_add, List.map_append, List.sum_append, List.map_map]
  have hnn : 0 ≤ ((List.range t).map (h ∘ fun x => m + x)).sum := by
    apply List.sum_nonneg
    intro x hx
    obtain ⟨k, hk, rfl⟩ := List.mem_map.mp hx
    simp only [Function.comp_apply]
    exact h0 (m + k) (by have := List.mem_range.mp hk; omega)
  linarith

/-- Core arithmetic of the reduce-term comparison: spreading a smaller
balance over fewer periods leaves a pointwise smaller balance-before-
period than the original schedule. -/
theorem sac_balance_pointwise (B B0 : ℚ) (k m L : ℕ) (hB : 0 < B)
    (hBB0 : B ≤ B0) (hk : k < m) (hmL : m ≤ L) :
    B - k * (B / m) ≤ B0 - k * (B0 / L) := by
  have hm : 1 ≤ m := by omega
  have hmQ : (0 : ℚ) < (m : ℚ) := by exact_mod_cast hm
  have hLQ : (0 : ℚ) < (L : ℚ) := by
    have : 1 ≤ L := le_trans hm hmL
    exact_mod_cast this
  have hkm : (k : ℚ) ≤ (m : ℚ) := by exact_mod_cast Nat.le_of_lt hk
  have hmLQ : (m : ℚ) ≤ (L : ℚ) := by exact_mod_cast hmL
  have hkQ : (0 : ℚ) ≤ (k : ℚ) := by positivity
  have e1 : B - k * (B / m) = B * ((m : ℚ) - k) / m := by
    field_simp
    ring
  have e2 : B0 - k * (B0 / L) = B0 * ((L : ℚ) - k) / L := by
    field_simp
    ring
  rw [e1, e2, div_le_div_iff₀ hmQ hLQ]
  have hx1 : (0 : ℚ) ≤ (B0 - B) * ((m : ℚ) * ((L : ℚ) - k)) := by
    apply mul_nonneg (by linarith)
    apply mul_nonneg (le_of_lt hmQ)
    linarith
  have hx2 : (0 : ℚ) ≤ B * ((k : ℚ) * ((L : ℚ) - (m : ℚ))) := by
    apply mul_nonneg (le_of_lt hB)
    apply mul_nonneg hkQ
    linarith
  nlinarith [hx1, hx2]

/-- **C9** (amended): for a SAC financing whose installments are exactly
the SAC schedule for (B0, rate, L) with every installment still pending,
and an extraAmount leaving a positive balance that L installments of the
recorded (2-decimal) amortization still cover, the reduce_term simulation
yields newTerm ≤ pending.length and savings.interest ≥ 0.  (As frozen —
over every financing and extraAmount — both bounds fail, because the
recorded amortization is rounded; see the counterexample.) -/
theorem claim_C9_reduce_term (f : Financing) (B0 rate : ℚ) (L : ℕ)
    (d today : SDate) (extra : ℚ)
    (hsys : f.system = "SAC") (hprin : f.principal = B0)
    (hrate : f.annualRate = rate)
    (hfin : f.installments = calculateSAC B0 rate L d)
    (hB0 : 0 < B0) (hr : 0 ≤ rate) (hL : 2 ≤ L)
    (hex : 0 < extra) (hlt : extra < B0)
    (hra : 0 < round2 (B0 / L))
    (hfit : B0 - extra ≤ L * round2 (B0 / L)) :
    ∃ res, simulateExtraAmortization f extra "reduce_term" today = some res
      ∧ res.newTerm ≤ (f.installments.filter
          (fun i => decide (¬ i.status = IStatus.paid))).length
      ∧ 0 ≤ res.savingsInterest := by
  have hlenL : (calculateSAC B0 rate L d).length = L := by
    rw [calculateSAC_def]; exact sacRows_length _ _ _ _ _ _
  have hfresh : ∀ i ∈ calculateSAC B0 rate L d, i.status = IStatus.pending := by
    intro i hi
    rw [calculateSAC_def] at hi
    exact (sacRows_fresh _ _ _ _ _ _ _ hi).1
  have hfilB : f.installments.filter
      (fun i => decide (¬ i.status = IStatus.paid)) = f.installments := by
    apply List.filter_eq_self.mpr
    intro a ha
    rw [hfin] at ha
    simp only [decide_eq_true_eq]
    rw [hfresh a ha]
    intro hcon
    exact IStatus.noConfusion hcon
  have hfilA : f.installments.filter
      (fun i => decide (i.status = IStatus.paid)) = [] := by
    apply List.filter_eq_nil_iff.mpr
    intro a ha
    rw [hfin] at ha
    simp only [decide_eq_true_eq]
    rw [hfresh a ha]
    intro hcon
    exact IStatus.noConfusion hcon
  cases hsched : calculateSAC B0 rate L d with
  | nil =>
      rw [hsched] at hlenL
      simp at hlenL
      omega
  | cons first rest =>
    have hfirst : first.principal = round2 (B0 / L) := by
      have hget := sacRows_get? (B0 / L) (rate / 100 / 12) d 0 L 1 B0
        (by omega)
      rw [← calculateSAC_def, hsched] at hget
      have hget2 : some first.principal = some (round2 (B0 / L)) :=
        congrArg (fun o => Option.map Installment.principal o) hget
      exact Option.some_inj.mp hget2
    have hfil2 : f.installments.filter
        (fun i => decide (¬ i.status = IStatus.paid)) = first :: rest := by
      rw [hfilB, hfin, hsched]
    have hlen2 : (first :: rest).length = L := by rw [← hsched, hlenL]
    have hB : (0 : ℚ) < B0 - extra := by linarith
    have hm_le : (⌈(B0 - extra) / round2 (B0 / L)⌉).toNat ≤ L := by
      rw [Int.toNat_le, Int.ceil_le, div_le_iff₀ hra]
      push_cast
      linarith
    have hm_pos : 1 ≤ (⌈(B0 - extra) / round2 (B0 / L)⌉).toNat := by
      have h1 : (0 : ℤ) < ⌈(B0 - extra) / round2 (B0 / L)⌉ :=
        Int.ceil_pos.mpr (div_pos hB hra)
      omega
    have hr' : (0 : ℚ) ≤ rate / 100 / 12 := by positivity
    have hold : ((first :: rest).map Installment.interest)
        = (List.range L).map (fun k =>
            round2 (sacBalance B0 (B0 / L) k * (rate / 100 / 12))) := by
      rw [← hsched, calculateSAC_def]
      exact sacRows_map_interest _ _ _ _ _ _
    have hnew : ∀ mm : ℕ,
        ((calculateSAC (B0 - extra) rate mm today).map Installment.interest)
          = (List.range mm).map (fun k =>
              round2 (sacBalance (B0 - extra) ((B0 - extra) / mm) k
                * (rate / 100 / 12))) := by
      intro mm
      rw [calculateSAC_def]
      exact sacRows_map_interest _ _ _ _ _ _
    have hsum : ∀ m : ℕ, 1 ≤ m → m ≤ L →
        ((List.range m).map (fun k =>
            round2 (sacBalance (B0 - extra) ((B0 - extra) / m) k
              * (rate / 100 / 12)))).sum
          ≤ ((List.range L).map (fun k =>
              round2 (sacBalance B0 (B0 / L) k * (rate / 100 / 12)))).sum := by
      intro m hm1 hmL
      have hmQ : (0 : ℚ) < (m : ℚ) := by exact_mod_cast hm1
      apply le_trans (sum_map_range_le _ _ m ?_) (sum_map_range_extend _ m L hmL ?_)
      · intro k hk
        have hkm : (k : ℚ) ≤ (m : ℚ) := by exact_mod_cast Nat.le_of_lt hk
        have hkL : (k : ℚ) ≤ (L : ℚ) := by
          exact_mod_cast Nat.le_of_lt (Nat.lt_of_lt_of_le hk hmL)
        have hLQ : (0 : ℚ) < (L : ℚ) := by
          exact_mod_cast (by omega : 0 < L)
        have hbound1 : (k : ℚ) * ((B0 - extra) / m) ≤ B0 - extra := by
          calc (k : ℚ) * ((B0 - extra) / m)
              ≤ (m : ℚ) * ((B0 - extra) / m) :=
                mul_le_mul_of_nonneg_right hkm (by positivity)
            _ = B0 - extra := by field_simp
        have hbound2 : (k : ℚ) * (B0 / L) ≤ B0 := by
          calc (k : ℚ) * (B0 / L) ≤ (L : ℚ) * (B0 / L) :=
                mul_le_mul_of_nonneg_right hkL (by positivity)
            _ = B0 := by field_simp
        rw [sacBalance_eq (B0 - extra) ((B0 - extra) / m) (by positivity) k
            hbound1,
          sacBalance_eq B0 (B0 / L) (by positivity) k hbound2]
        apply round2_mono
        apply mul_le_mul_of_nonneg_right _ hr'
        exact sac_balance_pointwise (B0 - extra) B0 k m L hB (by linarith)
          hk hmL
      · intro k _
        apply round2_nonneg
        apply mul_nonneg _ hr'
        exact sacBalance_nonneg B0 _ (le_of_lt hB0) k
    unfold simulateExtraAmortization
    simp only [hfil2, hfilA, List.getLast?_nil, hprin, hrate, hsys]
    rw [max_eq_right (by linarith : (0 : ℚ) ≤ B0 - extra)]
    rw [if_neg (by linarith : ¬ B0 - extra ≤ 0)]
    rw [if_neg (by decide : ¬ ("reduce_term" : String) = "reduce_payment")]
    rw [if_neg (by decide : ¬ ("SAC" : String) = "PRICE")]
    rw [hfirst]
    refine ⟨_, rfl, ?_, ?_⟩
    · show (calculateSAC (B0 - extra) rate
          (⌈(B0 - extra) / round2 (B0 / L)⌉).toNat today).length
        ≤ (first :: rest).length
      rw [hlen2, calculateSAC_def, sacRows_length]
      exact hm_le
    · show (0 : ℚ) ≤ round2 (((first :: rest).map Installment.interest).sum
        - ((calculateSAC (B0 - extra) rate
            (⌈(B0 - extra) / round2 (B0 / L)⌉).toNat today).map
              Installment.interest).sum)
      apply round2_nonneg
      rw [hold, hnew]
      have := hsum (⌈(B0 - extra) / round2 (B0 / L)⌉).toNat hm_pos hm_le
      linarith

/-- A SAC financing on 999.99 over 12 months, all installments pending.
The recorded per-installment amortization rounds DOWN to 83.33, so
12 × 83.33 = 999.96 no longer covers the balance 999.98 left by a
1-cent extra payment. -/
def exSacEdgeFin : Financing :=
  { id := "f1", name := "casa", type := "house", principal := 99999 / 100,
    annualRate := 12, monthlyRate := 1, termMonths := 12, system := "SAC",
    cetRate := none, startDate := "2024-01-01", paidInstallments := 0,
    anticipatedInstallments := 0,
    installments := calculateSAC (99999 / 100) 12 12 ⟨2024, 1, 1⟩,
    createdAt := "2024-01-01" }

/-- Counterexample to C9 as frozen: this financing has 12 pending
installments and extraAmount 0.01 leaves the positive balance 999.98, yet
reduce_term yields newTerm = 13 > 12 and savings.interest < 0. -/
theorem claim_C9_counterexample :
    (simulateExtraAmortization exSacEdgeFin (1 / 100) "reduce_term"
        ⟨2024, 6, 1⟩).map
        (fun res => (res.newTerm, decide (res.savingsInterest < 0)))
      = some (13, true)
    ∧ (exSacEdgeFin.installments.filter
        (fun i => decide (¬ i.status = IStatus.paid))).length = 12
    ∧ ¬ (13 ≤ 12) := by
  refine ⟨?_, ?_, ?_⟩
  · with_unfolding_all rfl
  · with_unfolding_all rfl
  · decide

/-- A well-behaved SAC financing for the C9 witness. -/
def exSacGoodFin : Financing :=
  { id := "f1", name := "casa", type := "house", principal := 1000,
    annualRate := 12, monthlyRate := 1, termMonths := 12, system := "SAC",
    cetRate := none, startDate := "2024-01-01", paidInstallments := 0,
    anticipatedInstallments := 0,
    installments := calculateSAC 1000 12 12 ⟨2024, 1, 1⟩,
    createdAt := "2024-01-01" }

/-- Witness for the amended C9: extraAmount 100 on the 1000/12%/12-month
SAC financing. -/
theorem claim_C9_reduce_term_witness :
    ∃ res, simulateExtraAmortization exSacGoodFin 100 "reduce_term"
        ⟨2024, 6, 1⟩ = some res
      ∧ res.newTerm ≤ (exSacGoodFin.installments.filter
          (fun i => decide (¬ i.status = IStatus.paid))).length
      ∧ 0 ≤ res.savingsInterest :=
  claim_C9_reduce_term exSacGoodFin 1000 12 12 ⟨2024, 1, 1⟩ ⟨2024, 6, 1⟩ 100
    rfl rfl rfl rfl (by norm_num) (by norm_num) (by norm_num) (by norm_num)
    (by norm_num) (by with_unfolding_all decide)
    (by with_unfolding_all decide)

end FinanceApp
